import Mathlib

/-!
Verification development for the BelexEmailer repository.

The JavaScript sources are shallowly embedded: each model definition mirrors
one source function (file and function named in its doc comment).  Numeric
values computed by JavaScript float arithmetic on decimal literals are
modelled by rationals; a JavaScript NaN result is modelled by Option.none.
-/

namespace Belex

/-! ## Character and string helpers (JS primitives used by the sources) -/

/-- Decimal digit test, mirroring the JS regex class \d over ASCII. -/
def isDig (c : Char) : Bool := '0' ≤ c && c ≤ '9'

/-- Whitespace test for the JS regex class \s (ASCII space, tab, LF, CR, FF, VT). -/
def isWs (c : Char) : Bool :=
  c == ' ' || c == '\t' || c == '\n' || c == '\r' || c == '\x0c' || c == '\x0b'

/-- Numeric value of a digit character. -/
def dVal (c : Char) : Nat := c.toNat - 48

/-- Value of a digit list read left to right in base 10 (models parseInt on digits). -/
def digitsVal (ds : List Char) : Nat := ds.foldl (fun a c => a * 10 + dVal c) 0

/-- JS String.prototype.trim on a character list. -/
def trimL (l : List Char) : List Char :=
  ((l.dropWhile isWs).reverse.dropWhile isWs).reverse

/-- Helper for collapseWs: the flag records whether the previous character was
whitespace, so a whitespace run contributes a single space. -/
def collapseWsAux : Bool → List Char → List Char
  | _, [] => []
  | prevWs, c :: rest =>
    if isWs c then
      if prevWs then collapseWsAux true rest
      else ' ' :: collapseWsAux true rest
    else c :: collapseWsAux false rest

/-- JS s.replace with a /\s+/g pattern and a single-space replacement: collapse
whitespace runs to one space. -/
def collapseWs (l : List Char) : List Char := collapseWsAux false l

/-- JS s.replace with two string arguments replaces only the first occurrence;
this is the special case replacing the first comma by a dot. -/
def commaToDotFirst : List Char → List Char
  | [] => []
  | c :: rest => if c == ',' then '.' :: rest else c :: commaToDotFirst rest

/-- Does the list start with the given pattern of characters? -/
def startsWithL : List Char → List Char → Bool
  | _, [] => true
  | [], _ :: _ => false
  | a :: as, b :: bs => a == b && startsWithL as bs

/-- Does hay contain needle as a contiguous sublist?  Models JS
String.prototype.includes. -/
def hasSubL (needle : List Char) : List Char → Bool
  | [] => startsWithL [] needle
  | c :: rest => startsWithL (c :: rest) needle || hasSubL needle rest

/-- String form of hasSubL. -/
def hasSub (hay needle : String) : Bool := hasSubL needle.toList hay.toList

/-- ASCII lower-casing of one character, as the source's translate calls and
the /i regex flag use it on the label words involved. -/
def lowerC (c : Char) : Char :=
  if 'A' ≤ c && c ≤ 'Z' then Char.ofNat (c.toNat + 32) else c

/-! ## Numeric extraction engine
Embeds extractNumberFromString of src/Functions/functions.improved.cjs.bak
(lines 154-184).  A JS NaN return is Option.none.  The finite values the
source manipulates are all decimal numbers, so they are carried exactly as a
natural mantissa with a power-of-ten exponent; DecV.toRat gives the rational
the JS number denotes. -/

/-- Exact decimal value: man divided by ten to the exp. -/
structure DecV where
  man : ℕ
  exp : ℕ
  deriving DecidableEq, Repr

/-- Rational denoted by a decimal value. -/
def DecV.toRat (v : DecV) : ℚ := (v.man : ℚ) / (10 : ℚ) ^ v.exp

/-- The JS comparison of the value against 50. -/
def DecV.lt50 (v : DecV) : Bool := decide (v.man < 50 * 10 ^ v.exp)

/-- The JS multiplication of the value by 1000. -/
def DecV.mul1000 (v : DecV) : DecV := ⟨v.man * 1000, v.exp⟩

/-- Model of JS parseFloat restricted to strings of the shape
digits [ dot digits* ]? tail, which is the only shape the source feeds it
after comma normalisation.  Parsing stops at the first character that does
not continue the number. -/
def parseDec (l : List Char) : DecV :=
  let intPart := l.takeWhile isDig
  let rest := l.dropWhile isDig
  match rest with
  | '.' :: r =>
    let frac := r.takeWhile isDig
    ⟨digitsVal intPart * 10 ^ frac.length + digitsVal frac, frac.length⟩
  | _ => ⟨digitsVal intPart, 0⟩

/-- Leftmost match of the JS regex (\d+[.,]?\d*): from the first digit, a
maximal digit run, then one optional separator, then a maximal digit run. -/
def matchNumToken : List Char → Option (List Char)
  | [] => none
  | c :: rest =>
    if isDig c then
      let run := (c :: rest).takeWhile isDig
      let after := (c :: rest).dropWhile isDig
      match after with
      | s :: r =>
        if s == '.' || s == ',' then some (run ++ s :: r.takeWhile isDig)
        else some run
      | [] => some run
    else matchNumToken rest

/-- Test for the anchored JS regex matching one to three digits, then a
dot, then exactly three digits, anchored at both ends. -/
def isGroupedShape (l : List Char) : Bool :=
  let intPart := l.takeWhile isDig
  decide (1 ≤ intPart.length) && decide (intPart.length ≤ 3) &&
    match l.dropWhile isDig with
    | '.' :: r => r.length == 3 && r.all isDig
    | _ => false

/-- Test for the unanchored JS regex for a digit, a dot, then one to three digits: some digit, a dot and a
digit occur contiguously. -/
def hasDigDotDig : List Char → Bool
  | a :: '.' :: b :: rest => (isDig a && isDig b) || hasDigDotDig ('.' :: b :: rest)
  | _ :: rest => hasDigDotDig rest
  | [] => false

/-- JS numStr.split with a dot argument, index 1: the characters strictly
between the first dot and the following dot or end. -/
def afterFirstDot (l : List Char) : List Char :=
  match l.dropWhile (fun c => !(c == '.')) with
  | '.' :: r => r.takeWhile (fun c => !(c == '.'))
  | _ => []

/-- JS numStr.replace of the first dot by the empty string (used by rule a). -/
def dropFirstDot : List Char → List Char
  | [] => []
  | c :: rest => if c == '.' then rest else c :: dropFirstDot rest

/-- Embeds extractNumberFromString (functions.improved.cjs.bak lines 154-184):
trim, collapse whitespace, replace the first comma by a dot, match the first
number token, parse it, then apply the three corrective rules in sequence. -/
def extractNumberFromString (txt : String) : Option DecV :=
  if txt = "" then none
  else
    let cleaned := commaToDotFirst (collapseWs (trimL txt.toList))
    match matchNumToken cleaned with
    | none => none
    | some numStr =>
      let value0 := parseDec (commaToDotFirst numStr)
      let value1 : DecV :=
        if isGroupedShape numStr then ⟨digitsVal (dropFirstDot numStr), 0⟩ else value0
      let value2 := if value1.lt50 && hasDigDotDig numStr then value1.mul1000 else value1
      let value3 :=
        if value2.lt50 && hasSubL ['.'] numStr && decide (2 < (afterFirstDot numStr).length)
        then value2.mul1000 else value2
      some value3

/-! ## Digit-free inputs give absence -/

theorem matchNumToken_eq_none (l : List Char) (h : ∀ c ∈ l, isDig c = false) :
    matchNumToken l = none := by
  induction l with
  | nil => rfl
  | cons c rest ih =>
    have hc := h c (List.mem_cons_self _ _)
    simp only [matchNumToken, hc, Bool.false_eq_true, if_false]
    exact ih fun x hx => h x (List.mem_cons_of_mem _ hx)

theorem mem_trimL {c : Char} {l : List Char} (h : c ∈ trimL l) : c ∈ l := by
  unfold trimL at h
  rw [List.mem_reverse] at h
  have h2 : c ∈ (l.dropWhile isWs).reverse := List.dropWhile_subset _ h
  rw [List.mem_reverse] at h2
  exact List.dropWhile_subset _ h2

theorem mem_collapseWsAux {c : Char} {l : List Char} :
    ∀ {b : Bool}, c ∈ collapseWsAux b l → c = ' ' ∨ c ∈ l := by
  induction l with
  | nil => intro b h; simp [collapseWsAux] at h
  | cons d rest ih =>
    intro b h
    rw [collapseWsAux] at h
    by_cases hws : isWs d
    · rw [if_pos hws] at h
      cases b with
      | true =>
        simp only [if_pos rfl] at h
        rcases ih h with rfl | h3
        · exact Or.inl rfl
        · exact Or.inr (List.mem_cons_of_mem _ h3)
      | false =>
        simp only [Bool.false_eq_true, if_false] at h
        rcases List.mem_cons.mp h with rfl | h2
        · exact Or.inl rfl
        rcases ih h2 with rfl | h3
        · exact Or.inl rfl
        · exact Or.inr (List.mem_cons_of_mem _ h3)
    · rw [if_neg hws] at h
      rcases List.mem_cons.mp h with rfl | h2
      · exact Or.inr (List.mem_cons_self _ _)
      rcases ih h2 with rfl | h3
      · exact Or.inl rfl
      · exact Or.inr (List.mem_cons_of_mem _ h3)

theorem mem_collapseWs {c : Char} {l : List Char} (h : c ∈ collapseWs l) :
    c = ' ' ∨ c ∈ l :=
  mem_collapseWsAux h

theorem mem_commaToDotFirst {c : Char} {l : List Char} (h : c ∈ commaToDotFirst l) :
    c = '.' ∨ c ∈ l := by
  induction l with
  | nil => simp [commaToDotFirst] at h
  | cons d rest ih =>
    rw [commaToDotFirst] at h
    by_cases hd : d == ','
    · rw [if_pos hd] at h
      rcases List.mem_cons.mp h with rfl | h2
      · exact Or.inl rfl
      · exact Or.inr (List.mem_cons_of_mem _ h2)
    · rw [if_neg hd] at h
      rcases List.mem_cons.mp h with rfl | h2
      · exact Or.inr (List.mem_cons_self _ _)
      rcases ih h2 with rfl | h3
      · exact Or.inl rfl
      · exact Or.inr (List.mem_cons_of_mem _ h3)

theorem extractNumber_none_of_no_digit (txt : String) (h : ∀ c ∈ txt.toList, isDig c = false) :
    extractNumberFromString txt = none := by
  by_cases he : txt = ""
  · simp [extractNumberFromString, he]
  have hm : matchNumToken (commaToDotFirst (collapseWs (trimL txt.data))) = none := by
    apply matchNumToken_eq_none
    intro c hc
    rcases mem_commaToDotFirst hc with rfl | hc2
    · decide
    rcases mem_collapseWs hc2 with rfl | hc3
    · decide
    exact h c (mem_trimL hc3)
  simp [extractNumberFromString, he, hm]

/-- C1: for every input string, extractNumberFromString finds the first number
token, normalises the comma to a decimal point and applies the three
corrective rules in sequence, so that the literal fixtures hold exactly: the
string 8.400 yields 8400, the string 5,002 yields 5002, the string 1.020442
yields 1020.442, and a string containing no digits yields absence, not zero
and not a numeric error. -/
theorem extractNumber_fixtures :
    (extractNumberFromString "8.400" = some ⟨8400, 0⟩ ∧ DecV.toRat ⟨8400, 0⟩ = 8400) ∧
    (extractNumberFromString "5,002" = some ⟨5002, 0⟩ ∧ DecV.toRat ⟨5002, 0⟩ = 5002) ∧
    (extractNumberFromString "1.020442" = some ⟨1020442000, 6⟩ ∧
      DecV.toRat ⟨1020442000, 6⟩ = 1020442 / 1000) ∧
    ∀ txt : String, (∀ c ∈ txt.toList, isDig c = false) → extractNumberFromString txt = none :=
  ⟨⟨by decide, by norm_num [DecV.toRat]⟩,
   ⟨by decide, by norm_num [DecV.toRat]⟩,
   ⟨by decide, by norm_num [DecV.toRat]⟩,
   extractNumber_none_of_no_digit⟩

/-- C1 witness: the digit-free conjunct applied to a concrete digit-free string. -/
theorem extractNumber_fixtures_witness : extractNumberFromString "n/a" = none :=
  extractNumber_fixtures.2.2.2 "n/a" (by decide)

/-! ## Backoff-retrying transport
Embeds fetchWithRetries of src/pdfAlertTracker.js (lines 93-136); the copy in
src/unnamed/part_003 (lines 22-70) is line-for-line the same logic. -/

/-- Raw outcome of one fetch attempt: the promise either resolves with an HTTP
response carrying a status, or rejects with an error carrying an optional
error code and a message. -/
inductive AttemptRes where
  | response (status : Nat)
  | netError (code : Option String) (msg : String)
  deriving DecidableEq, Repr

/-- Error value thrown inside the retry loop of the source. -/
structure FetchErr where
  msg : String
  code : Option String
  status : Option Nat
  deriving DecidableEq, Repr

/-- Result of the whole fetchWithRetries call: the returned response status or
the thrown error. -/
inductive FetchResult where
  | ok (status : Nat)
  | err (e : FetchErr)
  deriving DecidableEq, Repr

/-- One loop iteration up to the first throw: a response with res.ok false
(status outside 200-299) is turned into an Error whose message is the text
fetch url failed status with the status attached; a rejection is kept as the
caught error. -/
def attemptOutcome (url : String) : AttemptRes → FetchResult
  | .response st =>
    if 200 ≤ st ∧ st ≤ 299 then .ok st
    else .err ⟨"fetch " ++ url ++ " failed " ++ toString st, none, some st⟩
  | .netError c m => .err ⟨m, c, none⟩

/-- Embeds the isTransient classification of fetchWithRetries
(pdfAlertTracker.js lines 117-125). -/
def isTransient (e : FetchErr) : Bool :=
  e.code == some "ECONNRESET" || e.code == some "EPIPE" || e.code == some "ETIMEDOUT" ||
  hasSub e.msg "socket hang up" || hasSub e.msg "network timeout" ||
  hasSub e.msg "aborted" || hasSub e.msg "fetch"

/-- Observable trace of one fetchWithRetries call: the outcome, how many
attempts ran, and the pairs of backoff base and jitter slept between
consecutive attempts. -/
structure RunOut where
  result : FetchResult
  attempts : Nat
  delays : List (Nat × Nat)
  deriving DecidableEq, Repr

/-- Loop body of fetchWithRetries (pdfAlertTracker.js lines 95-134).  attempt
is the one-based loop counter; fuel counts the remaining retries, so fuel zero
is the JS test attempt === retries and the loop rethrows the last error.  att
gives each attempt's raw outcome, jit the jitter sampled before each sleep. -/
def fetchGo (url : String) (att : Nat → AttemptRes) (jit : Nat → Nat) :
    Nat → Nat → RunOut
  | attempt, fuel =>
    match attemptOutcome url (att attempt) with
    | .ok st => ⟨.ok st, 1, []⟩
    | .err e =>
      if isTransient e then
        match fuel with
        | 0 => ⟨.err e, 1, []⟩
        | f + 1 =>
          let base := min (1000 * 2 ^ (attempt - 1)) 10000
          let rest := fetchGo url att jit (attempt + 1) f
          ⟨rest.result, rest.attempts + 1, (base, jit attempt) :: rest.delays⟩
      else ⟨.err e, 1, []⟩

/-- Embeds fetchWithRetries for a positive retry budget: the JS loop starts at
attempt 1 and may retry maxRetries minus one times. -/
def fetchWithRetries (url : String) (att : Nat → AttemptRes) (jit : Nat → Nat)
    (maxRetries : Nat) : RunOut :=
  fetchGo url att jit 1 (maxRetries - 1)

/-- Jitter as the source computes it: Math.floor of a unit-interval sample
times 500. -/
def jitterOf (r : ℚ) : Nat := (Int.floor (r * 500)).toNat

theorem jitterOf_lt (r : ℚ) (_h0 : 0 ≤ r) (h1 : r < 1) : jitterOf r < 500 := by
  have h : Int.floor (r * 500) < (500 : ℤ) := by
    apply Int.floor_lt.mpr
    push_cast
    nlinarith
  unfold jitterOf
  omega

theorem fetchGo_all_transient (url : String) (att : Nat → AttemptRes) (jit : Nat → Nat)
    (e : Nat → FetchErr)
    (hf : ∀ k, attemptOutcome url (att k) = .err (e k))
    (ht : ∀ k, isTransient (e k) = true) :
    ∀ fuel a, 1 ≤ a →
      fetchGo url att jit a fuel =
        ⟨.err (e (a + fuel)), fuel + 1,
          (List.range fuel).map
            (fun i => (min (1000 * 2 ^ (a - 1 + i)) 10000, jit (a + i)))⟩ := by
  intro fuel
  induction fuel with
  | zero =>
    intro a ha
    rw [fetchGo, hf a]
    simp only [ht a, if_true]
    simp
  | succ f ih =>
    intro a ha
    rw [fetchGo, hf a]
    simp only [ht a, if_true]
    simp only [ih (a + 1) (by omega)]
    have h2 : a + 1 + f = a + (f + 1) := by omega
    rw [List.range_succ_eq_map, List.map_cons, List.map_map]
    simp only [RunOut.mk.injEq]
    refine ⟨by rw [h2], trivial, ?_⟩
    refine congrArg₂ _ ?_ ?_
    · simp
    · symm
      apply List.map_congr_left
      intro i _
      have e1 : a - 1 + (i + 1) = a + 1 - 1 + i := by omega
      have e2 : a + (i + 1) = a + 1 + i := by omega
      simp [Function.comp, e1, e2]

/-- C3: for a run of consecutive transient failures, the delay slept before
the attempt after the k-th failure has base min of the cap 10000 and 1000
times 2 to the k minus 1, the jitter added is below 500 when the random
samples lie in the unit interval, and after exactly maxRetries transient
failures the call throws the last error having made exactly maxRetries
attempts. -/
theorem fetch_backoff_growth (url : String) (att : Nat → AttemptRes) (rand : Nat → ℚ)
    (maxRetries : Nat) (e : Nat → FetchErr)
    (hr : ∀ k, 0 ≤ rand k ∧ rand k < 1)
    (h1 : 1 ≤ maxRetries)
    (hf : ∀ k, attemptOutcome url (att k) = .err (e k))
    (ht : ∀ k, isTransient (e k) = true) :
    fetchWithRetries url att (fun k => jitterOf (rand k)) maxRetries =
      ⟨.err (e maxRetries), maxRetries,
        (List.range (maxRetries - 1)).map
          (fun i => (min (1000 * 2 ^ i) 10000, jitterOf (rand (1 + i))))⟩ ∧
    ∀ d ∈ (fetchWithRetries url att (fun k => jitterOf (rand k)) maxRetries).delays,
      d.2 < 500 := by
  have hrun := fetchGo_all_transient url att (fun k => jitterOf (rand k)) e hf ht
    (maxRetries - 1) 1 (by omega)
  have hmain : fetchWithRetries url att (fun k => jitterOf (rand k)) maxRetries =
      ⟨.err (e maxRetries), maxRetries,
        (List.range (maxRetries - 1)).map
          (fun i => (min (1000 * 2 ^ i) 10000, jitterOf (rand (1 + i))))⟩ := by
    rw [fetchWithRetries, hrun]
    have h2 : 1 + (maxRetries - 1) = maxRetries := by omega
    simp only [RunOut.mk.injEq]
    refine ⟨by rw [h2], by omega, ?_⟩
    apply List.map_congr_left
    intro i _
    simp
  refine ⟨hmain, ?_⟩
  intro d hd
  rw [hmain] at hd
  simp only [List.mem_map, List.mem_range] at hd
  obtain ⟨i, _, rfl⟩ := hd
  exact jitterOf_lt _ (hr (1 + i)).1 (hr (1 + i)).2

/-- C3 witness: three transient connection resets exhaust a budget of three
attempts with capped delays and sub-500 jitter. -/
theorem fetch_backoff_growth_witness :
    fetchWithRetries "u" (fun _ => .netError (some "ECONNRESET") "read ECONNRESET")
      (fun k => jitterOf ((fun _ => (0 : ℚ)) k)) 3 =
      ⟨.err ⟨"read ECONNRESET", some "ECONNRESET", none⟩, 3,
        (List.range 2).map
          (fun i => (min (1000 * 2 ^ i) 10000, jitterOf ((fun _ => (0 : ℚ)) (1 + i))))⟩ ∧
    ∀ d ∈ (fetchWithRetries "u" (fun _ => .netError (some "ECONNRESET") "read ECONNRESET")
      (fun k => jitterOf ((fun _ => (0 : ℚ)) k)) 3).delays, d.2 < 500 :=
  fetch_backoff_growth "u" _ (fun _ => (0 : ℚ)) 3
    (fun _ => ⟨"read ECONNRESET", some "ECONNRESET", none⟩)
    (fun _ => ⟨le_refl 0, by norm_num⟩) (by omega) (fun _ => rfl)
    (by
      intro k
      show isTransient ⟨"read ECONNRESET", some "ECONNRESET", none⟩ = true
      decide)

/-! ## Transient classification of HTTP failures -/

theorem startsWithL_nil (l : List Char) : startsWithL l [] = true := by
  cases l <;> rfl

theorem startsWithL_self_append (pre post : List Char) :
    startsWithL (pre ++ post) pre = true := by
  induction pre with
  | nil => exact startsWithL_nil _
  | cons c cs ih => simp [startsWithL, ih]

theorem hasSubL_of_startsWith (needle l : List Char) (h : startsWithL l needle = true) :
    hasSubL needle l = true := by
  cases l with
  | nil => simpa [hasSubL] using h
  | cons c r => simp [hasSubL, h]

theorem hasSub_fetch_msg (u t : String) :
    hasSub ("fetch " ++ u ++ " failed " ++ t) "fetch" = true := by
  apply hasSubL_of_startsWith
  have hl : ("fetch " ++ u ++ " failed " ++ t).toList
      = "fetch".toList ++ (' ' :: (u.data ++ " failed ".data ++ t.data)) := by
    simp [String.toList, String.data_append]
  rw [hl]
  exact startsWithL_self_append _ _

/-- C2 counterexample: a 404 response, which the claim calls non-retriable, is
in fact retried.  Its error message starts with the word fetch, so the
transient test accepts it; with a retry budget of three the call runs a second
attempt after a full backoff delay instead of failing immediately. -/
theorem fetch_404_retried :
    isTransient ⟨"fetch u failed 404", none, some 404⟩ = true ∧
    fetchWithRetries "u"
      (fun k => if k = 1 then .response 404 else .response 200) (fun _ => 0) 3 =
      ⟨.ok 200, 2, [(1000, 0)]⟩ := by decide

/-- C2 amended: a failure is retried only when the transient test of the
source accepts it, that is when its code is ECONNRESET, EPIPE or ETIMEDOUT or
its message contains one of the texts socket hang up, network timeout, aborted
or fetch.  A first-attempt failure the test rejects makes the call throw at
once with one attempt and no delay; but every non-ok HTTP response, 4xx
included, is accepted by the test, because the error raised for it carries a
message that contains the word fetch. -/
theorem fetch_transient_classification
    (url : String) (att : Nat → AttemptRes) (jit : Nat → Nat) (maxRetries : Nat)
    (e : FetchErr)
    (hf : attemptOutcome url (att 1) = .err e)
    (hnt : isTransient e = false) :
    fetchWithRetries url att jit maxRetries = ⟨.err e, 1, []⟩ ∧
    ∀ (url2 : String) (st : Nat), ¬(200 ≤ st ∧ st ≤ 299) →
      attemptOutcome url2 (.response st) =
        .err ⟨"fetch " ++ url2 ++ " failed " ++ toString st, none, some st⟩ ∧
      isTransient ⟨"fetch " ++ url2 ++ " failed " ++ toString st, none, some st⟩ = true := by
  refine ⟨?_, ?_⟩
  · rw [fetchWithRetries, fetchGo, hf]
    simp [hnt]
  · intro url2 st h
    constructor
    · simp [attemptOutcome, if_neg h]
    · have hlast := hasSub_fetch_msg url2 (toString st)
      simp [isTransient, hlast]

/-- C2 witness: the immediate-throw conjunct at a DNS-style failure whose code
and message match nothing in the transient list. -/
theorem fetch_transient_classification_witness :
    fetchWithRetries "u" (fun _ => .netError (some "ENOTFOUND") "getaddrinfo ENOTFOUND u")
      (fun _ => 0) 3 = ⟨.err ⟨"getaddrinfo ENOTFOUND u", some "ENOTFOUND", none⟩, 1, []⟩ :=
  (fetch_transient_classification "u"
    (fun _ => .netError (some "ENOTFOUND") "getaddrinfo ENOTFOUND u") (fun _ => 0) 3
    ⟨"getaddrinfo ENOTFOUND u", some "ENOTFOUND", none⟩ rfl (by decide)).1

/-! ## Browser page pool
Embeds getPage and releasePage of src/Functions/functions.improved.cjs.bak
(lines 114-134).  The free list pagePool starts empty; pushes and pops act on
its tail as the JS array does. -/

/-- A pooled automation page: an identifier and whether its last navigation
left it on the blank page. -/
structure Page where
  id : Nat
  blank : Bool
  deriving DecidableEq, Repr

/-- Embeds releasePage (lines 122-134): below capacity the page is navigated
to about:blank and pushed; at capacity, or when the navigation throws
(resetOk false), the page is closed instead.  Returns the new free list and
the closed pages. -/
def releasePage (maxPages : Nat) (pool : List Page) (p : Page) (resetOk : Bool) :
    List Page × List Page :=
  if pool.length < maxPages then
    if resetOk then (pool ++ [{ p with blank := true }], [])
    else (pool, [p])
  else (pool, [p])

/-- Embeds getPage (lines 114-120): pop the most recently pooled page if the
free list is non-empty, otherwise hand out a fresh page created outside the
pool. -/
def getPage (pool : List Page) (fresh : Page) : Page × List Page :=
  match pool.getLast? with
  | some p => (p, pool.dropLast)
  | none => (fresh, [])

/-- One pool operation issued by a caller. -/
inductive PoolOp where
  | get (fresh : Page)
  | release (p : Page) (resetOk : Bool)
  deriving DecidableEq, Repr

/-- Effect of one operation on the free list. -/
def poolStep (maxPages : Nat) (pool : List Page) : PoolOp → List Page
  | .get fresh => (getPage pool fresh).2
  | .release p ok => (releasePage maxPages pool p ok).1

/-- Free list after a sequence of operations starting from the empty pool. -/
def poolRun (maxPages : Nat) (ops : List PoolOp) : List Page :=
  ops.foldl (poolStep maxPages) []

theorem poolStep_inv (maxPages : Nat) (pool : List Page) (op : PoolOp)
    (hlen : pool.length ≤ maxPages) (hblank : ∀ q ∈ pool, q.blank = true) :
    (poolStep maxPages pool op).length ≤ maxPages ∧
      ∀ q ∈ poolStep maxPages pool op, q.blank = true := by
  cases op with
  | get fresh =>
    simp only [poolStep, getPage]
    cases hl : pool.getLast? with
    | none => simp
    | some p =>
      refine ⟨?_, ?_⟩
      · show pool.dropLast.length ≤ maxPages
        rw [List.length_dropLast]
        omega
      · show ∀ q ∈ pool.dropLast, q.blank = true
        intro q hq
        exact hblank q (List.mem_of_mem_dropLast hq)
  | release p ok =>
    simp only [poolStep, releasePage]
    by_cases hc : pool.length < maxPages
    · rw [if_pos hc]
      cases ok with
      | true =>
        simp only [if_pos rfl]
        refine ⟨by simp; omega, ?_⟩
        intro q hq
        rcases List.mem_append.mp hq with h1 | h2
        · exact hblank q h1
        · simp only [List.mem_singleton] at h2
          rw [h2]
      | false =>
        simp only [Bool.false_eq_true, if_false]
        exact ⟨hlen, hblank⟩
    · rw [if_neg hc]
      exact ⟨hlen, hblank⟩

theorem poolFold_inv (maxPages : Nat) (ops : List PoolOp) :
    ∀ pool, pool.length ≤ maxPages → (∀ q ∈ pool, q.blank = true) →
      (ops.foldl (poolStep maxPages) pool).length ≤ maxPages ∧
        ∀ q ∈ ops.foldl (poolStep maxPages) pool, q.blank = true := by
  induction ops with
  | nil => intro pool h1 h2; exact ⟨h1, h2⟩
  | cons op rest ih =>
    intro pool h1 h2
    rw [List.foldl_cons]
    have h3 := poolStep_inv maxPages pool op h1 h2
    exact ih _ h3.1 h3.2

/-- C6: for every sequence of getPage and releasePage operations the free list
never exceeds the configured capacity and holds only pages reset to the blank
state; a release at capacity destroys the page instead of pooling it, a
release whose reset fails destroys the page, and a successful release below
capacity pools the page navigated to blank. -/
theorem pool_capacity_invariant (maxPages : Nat) (ops : List PoolOp) :
    ((poolRun maxPages ops).length ≤ maxPages ∧
      ∀ q ∈ poolRun maxPages ops, q.blank = true) ∧
    (∀ (pool : List Page) (p : Page) (ok : Bool), maxPages ≤ pool.length →
      releasePage maxPages pool p ok = (pool, [p])) ∧
    (∀ (pool : List Page) (p : Page), releasePage maxPages pool p false = (pool, [p])) ∧
    (∀ (pool : List Page) (p : Page), pool.length < maxPages →
      releasePage maxPages pool p true = (pool ++ [⟨p.id, true⟩], [])) := by
  refine ⟨poolFold_inv maxPages ops [] (by simp) (by simp), ?_, ?_, ?_⟩
  · intro pool p ok h
    rw [releasePage, if_neg (by omega)]
  · intro pool p
    rw [releasePage]
    split
    · rfl
    · rfl
  · intro pool p h
    rw [releasePage, if_pos h, if_pos rfl]

/-- C6 witness: the at-capacity and reset-failure conjuncts at concrete pools. -/
theorem pool_capacity_invariant_witness :
    releasePage 1 [⟨0, true⟩] ⟨1, false⟩ true = ([⟨0, true⟩], [⟨1, false⟩]) ∧
    releasePage 4 [] ⟨2, false⟩ false = ([], [⟨2, false⟩]) ∧
    releasePage 4 [] ⟨3, false⟩ true = ([⟨3, true⟩], []) := by
  refine ⟨(pool_capacity_invariant 1 []).2.1 _ _ true (by decide),
    (pool_capacity_invariant 4 []).2.2.1 _ _, ?_⟩
  have h := (pool_capacity_invariant 4 []).2.2.2 [] ⟨3, false⟩ (by decide)
  simpa using h

/-! ## Mailbox reconnect scheduling
Embeds scheduleReconnect and the success path of connect from
src/Functions/functions.improved.cjs.bak (lines 475-503). -/

/-- Embeds scheduleReconnect (lines 475-496): the consecutive-failure counter
is incremented; past MAX_RECONNECT, a fixed 60000 ms cooldown is used and the
counter resets, otherwise the delay is the minimum of 30000 ms and 1000 times
2 to the incremented counter.  Returns the delay and the new counter. -/
def scheduleReconnect (reconnectAttempts : Nat) : Nat × Nat :=
  let r := reconnectAttempts + 1
  if 10 < r then (60000, 0)
  else (min 30000 (1000 * 2 ^ r), r)

/-- Embeds the success path of connect (lines 498-503): a successful
connection resets the consecutive-failure counter to zero. -/
def connectSuccessCounter (_reconnectAttempts : Nat) : Nat := 0

/-- C7: the source's own comment promises delays of 1s, 2s, 4s with a 30s cap,
that is min of the cap and 1000 times 2 to the k minus 1 for the k-th
consecutive failure, but the code computes 2 to the k: the very first
scheduled reconnect waits 2000 ms where the claimed policy gives 1000 ms.  The
other two conjuncts of the claim hold: past ten consecutive failures the delay
is the fixed 60000 ms cooldown with the counter reset, and a successful
connect resets the counter to zero. -/
theorem scheduleReconnect_first_delay :
    (scheduleReconnect 0).1 = 2000 ∧
    min 30000 (1000 * 2 ^ (1 - 1)) = 1000 ∧
    (scheduleReconnect 0).1 ≠ min 30000 (1000 * 2 ^ (1 - 1)) ∧
    scheduleReconnect 10 = (60000, 0) ∧
    connectSuccessCounter 5 = 0 := by decide

/-! ## Persisted-state writes
Embeds the file operations of savePrices (functions.improved.cjs.bak lines
67-77) and writeJSON (src/pdfAlertTracker.js lines 55-58). -/

/-- File-system operation performed by the persistence helpers. -/
inductive FsOp where
  | write (path : String) (content : String)
  | rename (src dst : String)
  deriving DecidableEq, Repr

/-- Embeds the success path of savePrices: serialise the full document to the
temp file, then rename the temp file over the target. -/
def savePricesOps (file json : String) : List FsOp :=
  [.write (file ++ ".tmp") json, .rename (file ++ ".tmp") file]

/-- Embeds writeJSON of pdfAlertTracker.js: one direct write of the serialised
document to the target path, with no temporary file. -/
def writeJSONOps (file json : String) : List FsOp :=
  [.write file json]

/-- A trace never writes the target path directly; the target then changes
only through renames, so no reader can observe a partially written file. -/
def atomicReplaceOnly (target : String) (ops : List FsOp) : Bool :=
  ops.all fun op =>
    match op with
    | .write p _ => !(p == target)
    | .rename _ _ => true

/-- C8 counterexample: the seen-set file is written by writeJSON with a direct
write to the target and no temporary file, so the claim that every persisted
state write goes through write-to-temp-then-rename is false. -/
theorem writeJSON_not_atomic :
    writeJSONOps "pdf_seen_tracker.json" "s" = [.write "pdf_seen_tracker.json" "s"] ∧
    atomicReplaceOnly "pdf_seen_tracker.json"
      (writeJSONOps "pdf_seen_tracker.json" "s") = false := by decide

/-- C8 amended: the prices mapping is persisted by savePrices through a write
to a temporary file followed by a rename over the target, and that trace never
writes the target directly; the seen-set is persisted by writeJSON of
pdfAlertTracker.js through a single direct write of the full document to the
target path, with no temporary file and no rename. -/
theorem persisted_state_write_shapes (file json : String) :
    savePricesOps file json =
      [.write (file ++ ".tmp") json, .rename (file ++ ".tmp") file] ∧
    atomicReplaceOnly file (savePricesOps file json) = true ∧
    writeJSONOps file json = [.write file json] := by
  refine ⟨rfl, ?_, rfl⟩
  have hne : (file ++ ".tmp") ≠ file := by
    intro h
    have h2 := congrArg String.length h
    rw [String.length_append] at h2
    have h3 : ".tmp".length = 4 := rfl
    rw [h3] at h2
    omega
  simp [atomicReplaceOnly, savePricesOps, hne]

/-! ## Percent change and ticker alerts
Embeds pctChange and checkTickersAndAlert of
src/Functions/functions.improved.cjs.bak (lines 382-427). -/

/-- Embeds pctChange (lines 382-386): null when either price is null, null
when the old price is zero, otherwise the relative change in percent. -/
def pctChange (oldP newP : Option ℚ) : Option ℚ :=
  match oldP, newP with
  | none, _ => none
  | _, none => none
  | some o, some n => if o = 0 then none else some ((n - o) / o * 100)

/-- One persisted prices.json entry: stored price and update timestamp. -/
structure PriceEntry where
  price : Option ℚ
  updated : Nat
  deriving Repr

/-- Per-ticker entry of the results object checkTickersAndAlert builds. -/
structure TickerResult where
  price : Option ℚ
  prev : Option ℚ
  change : Option ℚ
  error : Option String
  deriving Repr

/-- One alert mail: up is true for the plus-threshold alert; the computed
change and the old and new prices are the values interpolated into the mail
text. -/
structure Mail where
  receiver : String
  up : Bool
  ticker : String
  change : ℚ
  prevP : ℚ
  newP : ℚ
  deriving Repr

/-- Lookup of pricesState as an association list keyed by ticker. -/
def lookupEntry (state : List (String × PriceEntry)) (t : String) : Option PriceEntry :=
  match state.find? (fun kv => kv.1 == t) with
  | some kv => some kv.2
  | none => none

/-- Assignment pricesState of t, replacing any previous entry. -/
def setEntry (state : List (String × PriceEntry)) (t : String) (e : PriceEntry) :
    List (String × PriceEntry) :=
  (t, e) :: state.filter (fun kv => !(kv.1 == t))

/-- The JS expression reading the previous price: the entry's price field when
an entry exists, null otherwise. -/
def prevOf (state : List (String × PriceEntry)) (t : String) : Option ℚ :=
  match lookupEntry state t with
  | some e => e.price
  | none => none

/-- Embeds one loop iteration of checkTickersAndAlert (lines 395-423) given
the outcome of fetchPriceForTicker for this ticker.  Returns the new state,
the mails sent, the results entry, and how many savePrices calls ran. -/
def checkOneTicker (up down : ℚ) (receiver : String) (now : Nat)
    (fetchRes : Except String ℚ) (t : String)
    (state : List (String × PriceEntry)) :
    List (String × PriceEntry) × List Mail × TickerResult × Nat :=
  match fetchRes with
  | .error msg => (state, [], ⟨none, none, none, some msg⟩, 0)
  | .ok price =>
    let prev := prevOf state t
    let change : Option ℚ :=
      match prev with
      | some _ => pctChange prev (some price)
      | none => none
    let res : TickerResult := ⟨some price, prev, change, none⟩
    match prev, change with
    | some pv, some ch =>
      if up ≤ ch then
        (setEntry state t ⟨some price, now⟩, [⟨receiver, true, t, ch, pv, price⟩], res, 1)
      else if ch ≤ -down then
        (setEntry state t ⟨some price, now⟩, [⟨receiver, false, t, ch, pv, price⟩], res, 1)
      else
        (setEntry state t ⟨some price, now⟩, [], res, 1)
    | _, _ => (setEntry state t ⟨some price, now⟩, [], res, 1)

/-- Embeds checkTickersAndAlert (lines 389-427): fold the per-ticker step over
the ticker list, accumulating mails, results and savePrices calls. -/
def checkTickersAndAlert (up down : ℚ) (receiver : String) (now : Nat)
    (fetch : String → Except String ℚ) (tickers : List String)
    (state : List (String × PriceEntry)) :
    List (String × PriceEntry) × List Mail × List (String × TickerResult) × Nat :=
  tickers.foldl
    (fun acc t =>
      let r := checkOneTicker up down receiver now (fetch t) t acc.1
      (r.1, acc.2.1 ++ r.2.1, acc.2.2.1 ++ [(t, r.2.2.1)], acc.2.2.2 + r.2.2.2))
    (state, [], [], 0)

theorem checkOne_updates_state (up down : ℚ) (receiver : String) (now : Nat)
    (price : ℚ) (t : String) (state : List (String × PriceEntry)) :
    (checkOneTicker up down receiver now (.ok price) t state).1 =
      setEntry state t ⟨some price, now⟩ ∧
    (checkOneTicker up down receiver now (.ok price) t state).2.2.2 = 1 := by
  simp only [checkOneTicker]
  cases hp : prevOf state t with
  | none => exact ⟨rfl, rfl⟩
  | some pv =>
    cases hc : pctChange (some pv) (some price) with
    | none => exact ⟨rfl, rfl⟩
    | some ch =>
      by_cases h1 : up ≤ ch
      · simp [h1]
      · by_cases h2 : ch ≤ -down
        · simp [h1, h2]
        · simp [h1, h2]

/-- C5: with a persisted prior price of 100 and thresholds of five percent
both ways, a new price of 106 fires the up alert reporting a change of plus
six percent, 94 fires the down alert reporting minus six percent, and 102
fires nothing; in all three cases the persisted entry is replaced by the new
price and timestamp and savePrices runs.  In general the change is new minus
old over old times one hundred, and the state entry is replaced and saved on
every successful fetch whether or not an alert fires. -/
theorem checkTickers_threshold_scenarios :
    checkTickersAndAlert 5 5 "r" 7 (fun _ => .ok 106) ["T"] [("T", ⟨some 100, 0⟩)] =
      ([("T", ⟨some 106, 7⟩)], [⟨"r", true, "T", 6, 100, 106⟩],
        [("T", ⟨some 106, some 100, some 6, none⟩)], 1) ∧
    checkTickersAndAlert 5 5 "r" 7 (fun _ => .ok 94) ["T"] [("T", ⟨some 100, 0⟩)] =
      ([("T", ⟨some 94, 7⟩)], [⟨"r", false, "T", -6, 100, 94⟩],
        [("T", ⟨some 94, some 100, some (-6), none⟩)], 1) ∧
    checkTickersAndAlert 5 5 "r" 7 (fun _ => .ok 102) ["T"] [("T", ⟨some 100, 0⟩)] =
      ([("T", ⟨some 102, 7⟩)], [],
        [("T", ⟨some 102, some 100, some 2, none⟩)], 1) ∧
    (∀ o n : ℚ, o ≠ 0 → pctChange (some o) (some n) = some ((n - o) / o * 100)) ∧
    ∀ (up down : ℚ) (receiver : String) (now : Nat) (price : ℚ) (t : String)
      (state : List (String × PriceEntry)),
      (checkOneTicker up down receiver now (.ok price) t state).1 =
        setEntry state t ⟨some price, now⟩ ∧
      (checkOneTicker up down receiver now (.ok price) t state).2.2.2 = 1 := by
  have hprev : prevOf [("T", (⟨some 100, 0⟩ : PriceEntry))] "T" = some 100 := rfl
  refine ⟨?_, ?_, ?_, ?_, checkOne_updates_state⟩
  · have hch : pctChange (some (100 : ℚ)) (some 106) = some 6 := by
      rw [pctChange, if_neg (by norm_num : ¬(100 : ℚ) = 0)]
      norm_num
    have s1 : checkOneTicker 5 5 "r" 7 (.ok 106) "T" [("T", ⟨some 100, 0⟩)] =
        ([("T", ⟨some 106, 7⟩)], [⟨"r", true, "T", 6, 100, 106⟩],
          ⟨some 106, some 100, some 6, none⟩, 1) := by
      simp only [checkOneTicker, hprev, hch]
      rw [if_pos (by norm_num : (5 : ℚ) ≤ 6)]
      rfl
    simp only [checkTickersAndAlert, List.foldl_cons, List.foldl_nil, s1,
      List.nil_append, Nat.zero_add]
  · have hch : pctChange (some (100 : ℚ)) (some 94) = some (-6) := by
      rw [pctChange, if_neg (by norm_num : ¬(100 : ℚ) = 0)]
      norm_num
    have s2 : checkOneTicker 5 5 "r" 7 (.ok 94) "T" [("T", ⟨some 100, 0⟩)] =
        ([("T", ⟨some 94, 7⟩)], [⟨"r", false, "T", -6, 100, 94⟩],
          ⟨some 94, some 100, some (-6), none⟩, 1) := by
      simp only [checkOneTicker, hprev, hch]
      rw [if_neg (by norm_num : ¬(5 : ℚ) ≤ -6), if_pos (by norm_num : (-6 : ℚ) ≤ -5)]
      rfl
    simp only [checkTickersAndAlert, List.foldl_cons, List.foldl_nil, s2,
      List.nil_append, Nat.zero_add]
  · have hch : pctChange (some (100 : ℚ)) (some 102) = some 2 := by
      rw [pctChange, if_neg (by norm_num : ¬(100 : ℚ) = 0)]
      norm_num
    have s3 : checkOneTicker 5 5 "r" 7 (.ok 102) "T" [("T", ⟨some 100, 0⟩)] =
        ([("T", ⟨some 102, 7⟩)], [],
          ⟨some 102, some 100, some 2, none⟩, 1) := by
      simp only [checkOneTicker, hprev, hch]
      rw [if_neg (by norm_num : ¬(5 : ℚ) ≤ 2), if_neg (by norm_num : ¬(2 : ℚ) ≤ -5)]
      rfl
    simp only [checkTickersAndAlert, List.foldl_cons, List.foldl_nil, s3,
      List.nil_append, Nat.zero_add]
  · intro o n h
    rw [pctChange, if_neg h]

/-- C5 witness: the percent-change conjunct applied at the first scenario's
prices. -/
theorem checkTickers_threshold_scenarios_witness :
    pctChange (some (100 : ℚ)) (some 106) = some ((106 - 100) / 100 * 100) :=
  checkTickers_threshold_scenarios.2.2.2.1 100 106 (by simp)

/-- C10: pctChange is null whenever the old price is null, the new price is
null, or the old price is zero; consequently a successfully fetched subject
whose prior persisted price is zero or missing triggers no threshold
notification and no division, while its state entry is still replaced by the
newly fetched price and timestamp. -/
theorem pctChange_null_guards :
    (∀ n, pctChange none n = none) ∧
    (∀ o, pctChange o none = none) ∧
    (∀ n : ℚ, pctChange (some 0) (some n) = none) ∧
    ∀ (up down : ℚ) (receiver : String) (now : Nat) (price : ℚ) (t : String)
      (state : List (String × PriceEntry)),
      prevOf state t = none ∨ prevOf state t = some 0 →
      checkOneTicker up down receiver now (.ok price) t state =
        (setEntry state t ⟨some price, now⟩, [],
          ⟨some price, prevOf state t, none, none⟩, 1) := by
  refine ⟨?_, ?_, ?_, ?_⟩
  · intro n
    cases n <;> rfl
  · intro o
    cases o <;> rfl
  · intro n
    rw [pctChange, if_pos rfl]
  · intro up down receiver now price t state h
    rcases h with h | h
    · simp only [checkOneTicker, h]
    · simp only [checkOneTicker, h]
      rw [pctChange, if_pos rfl]

/-- C10 witness: a subject whose stored prior price is zero is updated without
any mail. -/
theorem pctChange_null_guards_witness :
    checkOneTicker 5 5 "r" 7 (.ok 102) "T" [("T", ⟨some 0, 0⟩)] =
      (setEntry [("T", ⟨some 0, 0⟩)] "T" ⟨some 102, 7⟩, [],
        ⟨some 102, prevOf [("T", ⟨some 0, 0⟩)] "T", none, none⟩, 1) :=
  pctChange_null_guards.2.2.2 5 5 "r" 7 102 "T" [("T", ⟨some 0, 0⟩)] (Or.inr rfl)

/-! ## Heuristic price locator
Embeds autodetectPriceFromPage (functions.improved.cjs.bak lines 187-237) and
the no-selector path of fetchPriceForTicker (lines 349-376).  The xpath
querying itself is the black-box select capability: a document is given as
the candidate texts each query yields, in document order, plus the rendered
body text. -/

/-- Document as the autodetect strategies see it: candidate element texts of
the three xpath strategies, and the page body text. -/
structure AutoDoc where
  s1 : List String
  s2 : List String
  s3 : List String
  body : String

/-- The candidate loop shared by the three autodetect strategies: the first
candidate whose extraction-engine parse is not NaN wins. -/
def firstEngineParse : List String → Option DecV
  | [] => none
  | t :: ts =>
    match extractNumberFromString t with
    | some v => some v
    | none => firstEngineParse ts

/-- Embeds autodetectPriceFromPage: strategy one (table label row), then
strategy two (label then next sibling), then strategy three (container whose
text mentions the label); first parsed candidate wins, null if all fail. -/
def autodetectPriceFromPage (d : AutoDoc) : Option DecV :=
  match firstEngineParse d.s1 with
  | some v => some v
  | none =>
    match firstEngineParse d.s2 with
    | some v => some v
    | none => firstEngineParse d.s3

/-- Case-insensitive prefix test against an already lower-cased pattern. -/
def startsWithCI : List Char → List Char → Bool
  | _, [] => true
  | [], _ :: _ => false
  | a :: as, b :: bs => lowerC a == b && startsWithCI as bs

/-- Capture of the regex piece digits, one of dot or comma, then one to six
digits, anchored at the current position; none when the position does not
match. -/
def numTokenAt (l : List Char) : Option (List Char) :=
  let intp := l.takeWhile isDig
  if intp.length = 0 then none
  else
    match l.drop intp.length with
    | s :: r =>
      if s == '.' || s == ',' then
        let frac := r.takeWhile isDig
        if frac.length = 0 then none else some (intp ++ s :: frac.take 6)
      else none
    | [] => none

/-- After a label match: the regex piece allowing up to thirty characters that
are neither digits nor line breaks before the number.  The gap class excludes
digits, so backtracking reduces to requiring the whole gap run to be short
enough and followed by a number. -/
def numAfterGap (l : List Char) : Option (List Char) :=
  let gap := l.takeWhile (fun c => !(isDig c) && !(c == '\n') && !(c == '\r'))
  if gap.length ≤ 30 then numTokenAt (l.drop gap.length) else none

/-- Leftmost match of the strategy-four body regex: the words Price or Cena,
case-insensitive, then the bounded gap, then the number capture.  The scan
advances one position at a time as the regex engine does. -/
def findLabelNum : List Char → Option (List Char)
  | [] => none
  | c :: rest =>
    match
      (if startsWithCI (c :: rest) ['p', 'r', 'i', 'c', 'e']
        then numAfterGap ((c :: rest).drop 5) else none) with
    | some tok => some tok
    | none =>
      match
        (if startsWithCI (c :: rest) ['c', 'e', 'n', 'a']
          then numAfterGap ((c :: rest).drop 4) else none) with
      | some tok => some tok
      | none => findLabelNum rest

/-- Leftmost match of the strategy-five body regex: the bare number capture
anywhere in the body, scanning one position at a time. -/
def findBareNum : List Char → Option (List Char)
  | [] => none
  | c :: rest =>
    match numTokenAt (c :: rest) with
    | some tok => some tok
    | none => findBareNum rest

/-- parseFloat of a regex capture after its comma is replaced by a dot, as
strategies four and five apply it.  A capture always has the shape digits,
separator, digits, so the parse cannot be NaN and the source's NaN guard after
it is dead. -/
def parseCapture (tok : List Char) : DecV := parseDec (commaToDotFirst tok)

/-- Outcome of the no-selector price fetch: the returned number or the thrown
error message. -/
inductive PriceOutcome where
  | ok (v : DecV)
  | err (msg : String)
  deriving DecidableEq, Repr

/-- Embeds the no-selector tail of fetchPriceForTicker (lines 349-376):
autodetect strategies one to three, then the near-label body regex, then the
first bare number token of the body, and otherwise a thrown error. -/
def fetchPriceAutodetect (d : AutoDoc) : PriceOutcome :=
  match autodetectPriceFromPage d with
  | some v => .ok v
  | none =>
    match findLabelNum d.body.toList with
    | some tok => .ok (parseCapture tok)
    | none =>
      match findBareNum d.body.toList with
      | some tok => .ok (parseCapture tok)
      | none => .err "Could not extract price (no selector matched and fallback failed)"

/-- C4 counterexample: on a document whose strategies one to three offer only
the non-numeric candidate n/a and whose body is Price 8.400, the locator
answers through strategy four with plain parseFloat: it returns 8.4 although
the extraction engine parses the same candidate text 8.400 to 8400; and on a
document where every strategy fails the call throws an error instead of
returning absence. -/
theorem locator_claim_fails :
    fetchPriceAutodetect ⟨["n/a"], [], [], "Price 8.400"⟩ = .ok ⟨8400, 3⟩ ∧
    DecV.toRat ⟨8400, 3⟩ = 84 / 10 ∧
    extractNumberFromString "8.400" = some ⟨8400, 0⟩ ∧
    DecV.toRat ⟨8400, 0⟩ = 8400 ∧
    (84 / 10 : ℚ) ≠ 8400 ∧
    fetchPriceAutodetect ⟨[], [], [], "no numbers here"⟩ =
      .err "Could not extract price (no selector matched and fallback failed)" := by
  refine ⟨by decide, by norm_num [DecV.toRat], by decide, by norm_num [DecV.toRat],
    by norm_num, by decide⟩

theorem firstEngineParse_append (xs ys : List String) :
    firstEngineParse (xs ++ ys) =
      match firstEngineParse xs with
      | some v => some v
      | none => firstEngineParse ys := by
  induction xs with
  | nil => rfl
  | cons t ts ih =>
    simp only [List.cons_append, firstEngineParse]
    cases extractNumberFromString t with
    | some v => rfl
    | none => exact ih

/-- C4 amended: the locator tries its strategies in the fixed order one to
five and the first success short-circuits the rest.  Strategies one to three
test their candidates in order with the numeric extraction engine, and their
combined behaviour is exactly the first engine-parsed candidate of the
concatenated candidate lists; when one of them parses, the call returns it and
consults neither body regex.  Strategies four and five parse their regex
capture with plain parseFloat instead of the engine.  When all five fail,
autodetectPriceFromPage yields absence but fetchPriceForTicker throws an
error, which its callers catch per subject. -/
theorem locator_priority_order (d : AutoDoc) :
    autodetectPriceFromPage d = firstEngineParse (d.s1 ++ d.s2 ++ d.s3) ∧
    (∀ v, firstEngineParse (d.s1 ++ d.s2 ++ d.s3) = some v →
      fetchPriceAutodetect d = .ok v) ∧
    (∀ tok, autodetectPriceFromPage d = none → findLabelNum d.body.toList = some tok →
      fetchPriceAutodetect d = .ok (parseCapture tok)) ∧
    (∀ tok, autodetectPriceFromPage d = none → findLabelNum d.body.toList = none →
      findBareNum d.body.toList = some tok →
      fetchPriceAutodetect d = .ok (parseCapture tok)) ∧
    (autodetectPriceFromPage d = none → findLabelNum d.body.toList = none →
      findBareNum d.body.toList = none →
      fetchPriceAutodetect d =
        .err "Could not extract price (no selector matched and fallback failed)") := by
  have heq : autodetectPriceFromPage d = firstEngineParse (d.s1 ++ d.s2 ++ d.s3) := by
    rw [autodetectPriceFromPage, firstEngineParse_append, firstEngineParse_append]
    cases firstEngineParse d.s1 with
    | some v => rfl
    | none =>
      cases firstEngineParse d.s2 with
      | some v => rfl
      | none => rfl
  refine ⟨heq, ?_, ?_, ?_, ?_⟩
  · intro v hv
    rw [fetchPriceAutodetect, heq, hv]
  · intro tok h1 h2
    rw [fetchPriceAutodetect, h1, h2]
  · intro tok h1 h2 h3
    rw [fetchPriceAutodetect, h1, h2, h3]
  · intro h1 h2 h3
    rw [fetchPriceAutodetect, h1, h2, h3]

/-- C4 witness: the short-circuit conjunct on a document where strategy two
holds the first parsable candidate. -/
theorem locator_priority_order_witness :
    fetchPriceAutodetect ⟨["x"], ["250,75"], ["9.9"], "7.7"⟩ = .ok ⟨25075, 2⟩ :=
  (locator_priority_order ⟨["x"], ["250,75"], ["9.9"], "7.7"⟩).2.1 ⟨25075, 2⟩ (by decide)

/-! ## News tracker: first-item processing and the seen-set
Embeds parseDateFromTd, findTickerFromText and processFirstItemIfToday of
src/pdfAlertTracker.js (lines 60-90 and 218-280); src/unnamed/part_001 holds
the same logic (lines 195-229).  Fetching, URL resolution, path basename,
PDF download, text extraction and mail transport are the external
collaborators of the spec: they enter as parameters. -/

/-- A day, month, year triple as parseDateFromTd returns it. -/
structure DateParts where
  day : Nat
  month : Nat
  year : Nat
  deriving DecidableEq, Repr

/-- One or two digits followed by a dot, with the regex's backtracking: two
digits then a dot wins, else one digit then a dot; returns the value and the
characters after the dot. -/
def matchD12Dot : List Char → Option (Nat × List Char)
  | a :: b :: c :: r =>
    if isDig a && isDig b && c == '.' then some (10 * dVal a + dVal b, r)
    else if isDig a && b == '.' then some (dVal a, c :: r)
    else none
  | [a, b] => if isDig a && b == '.' then some (dVal a, []) else none
  | _ => none

/-- Exactly four digits starting here; trailing characters are free because
the final dot of the date pattern is optional. -/
def match4Digits : List Char → Option Nat
  | a :: b :: c :: d :: _ =>
    if isDig a && isDig b && isDig c && isDig d then
      some (((dVal a * 10 + dVal b) * 10 + dVal c) * 10 + dVal d)
    else none
  | _ => none

/-- The date pattern anchored at the current position: day, dot, month, dot,
four-digit year. -/
def dateAt (l : List Char) : Option DateParts :=
  match matchD12Dot l with
  | none => none
  | some (d, r1) =>
    match matchD12Dot r1 with
    | none => none
    | some (m, r2) =>
      match match4Digits r2 with
      | none => none
      | some y => some ⟨d, m, y⟩

/-- Leftmost match of the date pattern, advancing one position at a time. -/
def findDate : List Char → Option DateParts
  | [] => none
  | c :: rest =>
    match dateAt (c :: rest) with
    | some dp => some dp
    | none => findDate rest

/-- Embeds parseDateFromTd (pdfAlertTracker.js lines 60-64): first match of
the day dot month dot year pattern, absence when the text is empty or no
match exists. -/
def parseDateFromTd (s : String) : Option DateParts :=
  if s = "" then none else findDate s.toList

/-- ASCII upper-casing of one character, as toUpperCase acts on the ticker
symbols and row texts involved. -/
def upperC (c : Char) : Char :=
  if 'a' ≤ c && c ≤ 'z' then Char.ofNat (c.toNat - 32) else c

/-- The regex word class: letters, digits and the underscore. -/
def isWordChar (c : Char) : Bool :=
  isDig c || ('a' ≤ c && c ≤ 'z') || ('A' ≤ c && c ≤ 'Z') || c == '_'

/-- Word test of an optional character; the ends of the string count as
non-word. -/
def isWordOpt : Option Char → Bool
  | none => false
  | some c => isWordChar c

/-- Word-boundary-delimited occurrence of needle in the remaining text, given
the character just before the current position. -/
def wbFind (needle : List Char) : Option Char → List Char → Bool
  | _, [] => false
  | prev, c :: rest =>
    (decide (needle ≠ []) && startsWithL (c :: rest) needle &&
      (isWordOpt prev != isWordOpt needle.head?) &&
      (isWordOpt needle.getLast? != isWordOpt ((c :: rest).drop needle.length).head?))
    || wbFind needle (some c) rest

/-- Embeds findTickerFromText (pdfAlertTracker.js lines 81-90): the first
ticker of the list that occurs word-bounded in the upper-cased text. -/
def findTickerFromText (text : String) (tickers : List String) : Option String :=
  if text = "" || tickers.isEmpty then none
  else
    tickers.findSome? fun t =>
      if t = "" then none
      else if wbFind (t.toList.map upperC) none (text.toList.map upperC) then some t
      else none

/-- The first news row of a page: the td.date text, the row's data-ticker
attribute, the row text, and the href of its first link ending in .pdf. -/
structure NewsRow where
  dateText : String
  rowTicker : Option String
  rowText : String
  pdfHref : Option String
  deriving Repr

/-- A fetched news-list page: its first dated row, if any. -/
structure NewsPage where
  row : Option NewsRow
  deriving Repr

/-- Externally visible action of one processFirstItemIfToday call. -/
inductive ProcEvt where
  | download (url : String)
  | email (recipients : List String) (ticker : Option String)
  | persistSeen (seen : List String)
  deriving DecidableEq, Repr

/-- JS Set add: append the identifier unless already present. -/
def addSeen (seen : List String) (u : String) : List String :=
  if seen.contains u then seen else seen ++ [u]

/-- The ticker detection of processFirstItemIfToday (lines 248-250): the
row's data-ticker attribute, else a ticker found in the row text, else one
found in the basename of the PDF URL path. -/
def tickerOf (alerts : List (String × List String)) (row : NewsRow) (pdfUrl : String)
    (basename : String → String) : Option String :=
  match row.rowTicker with
  | some t => some t
  | none =>
    match findTickerFromText row.rowText (alerts.map fun kv => kv.1) with
    | some t => some t
    | none => findTickerFromText (basename pdfUrl) (alerts.map fun kv => kv.1)

/-- The recipient lookup of processFirstItemIfToday (line 256): the alert list
of the detected ticker, empty when no ticker or no entry. -/
def recipientsOf (alerts : List (String × List String)) (tk : Option String) :
    List String :=
  match tk with
  | some t =>
    match alerts.find? (fun kv => kv.1 == t) with
    | some kv => kv.2
    | none => []
  | none => []

/-- Embeds processFirstItemIfToday (pdfAlertTracker.js lines 218-280).  The
parameters resolve and basename stand for the new URL resolution against the
list-page URL and path.basename of the URL path; dlOk tells whether the PDF
download succeeds and sendOk whether the mail transport accepts the message
(a thrown send is caught, so the item is then not marked seen).  Returns the
events in order and the new seen-set. -/
def processFirstItemIfToday (alerts : List (String × List String)) (seen : List String)
    (today : DateParts) (pageRes : Except String NewsPage)
    (resolve : String → String) (basename : String → String)
    (dlOk : Bool) (sendOk : Bool) :
    List ProcEvt × List String :=
  match pageRes with
  | .error _ => ([], seen)
  | .ok page =>
    match page.row with
    | none => ([], seen)
    | some row =>
      match parseDateFromTd row.dateText with
      | none => ([], seen)
      | some pd =>
        if pd = today then
          match row.pdfHref with
          | none => ([], seen)
          | some href =>
            let pdfUrl := resolve href
            if seen.contains pdfUrl then ([], seen)
            else
              let ticker := tickerOf alerts row pdfUrl basename
              if dlOk then
                let recipients := recipientsOf alerts ticker
                if recipients.isEmpty then
                  ([.download pdfUrl, .persistSeen (addSeen seen pdfUrl)], addSeen seen pdfUrl)
                else
                  if sendOk then
                    ([.download pdfUrl, .email recipients ticker,
                      .persistSeen (addSeen seen pdfUrl)], addSeen seen pdfUrl)
                  else ([.download pdfUrl, .email recipients ticker], seen)
              else ([.download pdfUrl], seen)
        else ([], seen)

/-- C9: a page whose first row resolves to an identifier already in the
seen-set is a no-op: no download, no second notification, seen-set unchanged.
A fresh same-day item is downloaded, notified when recipients exist, and only
then is its identifier added to the seen-set and persisted; with no recipients
the identifier is likewise added and persisted after the download. -/
theorem processSeen_idempotent (alerts : List (String × List String)) (seen : List String)
    (today : DateParts) (page : NewsPage)
    (resolve basename : String → String) (dlOk sendOk : Bool)
    (row : NewsRow) (href : String)
    (hrow : page.row = some row) (hhref : row.pdfHref = some href) :
    (seen.contains (resolve href) = true →
      processFirstItemIfToday alerts seen today (.ok page) resolve basename dlOk sendOk =
        ([], seen)) ∧
    (seen.contains (resolve href) = false →
      parseDateFromTd row.dateText = some today →
      dlOk = true → sendOk = true →
      (processFirstItemIfToday alerts seen today (.ok page) resolve basename dlOk
          sendOk).2 = addSeen seen (resolve href) ∧
      ((processFirstItemIfToday alerts seen today (.ok page) resolve basename dlOk
          sendOk).1 =
        [.download (resolve href), .persistSeen (addSeen seen (resolve href))] ∨
       ∃ r tk,
        (processFirstItemIfToday alerts seen today (.ok page) resolve basename dlOk
            sendOk).1 =
          [.download (resolve href), .email r tk,
            .persistSeen (addSeen seen (resolve href))])) := by
  constructor
  · intro hseen
    simp only [processFirstItemIfToday, hrow]
    cases hpd : parseDateFromTd row.dateText with
    | none => rfl
    | some pd =>
      by_cases hq : pd = today
      · simp only [hq, if_pos trivial, hhref]
        simp [hhref]
        intro hmem
        exact absurd (by simpa using hseen) hmem
      · simp [hq]
  · intro hseen hdate hdl hsend
    simp only [processFirstItemIfToday, hrow, hdate, if_pos rfl, hhref, hseen,
      Bool.false_eq_true, if_false, hdl, if_pos rfl, hsend]
    cases hrec : (recipientsOf alerts
        (tickerOf alerts row (resolve href) basename)).isEmpty with
    | true =>
      simp [hrec]
    | false =>
      simp only [hrec, Bool.false_eq_true, if_false, if_true]
      refine ⟨by trivial, Or.inr ⟨recipientsOf alerts
        (tickerOf alerts row (resolve href) basename),
        tickerOf alerts row (resolve href) basename, by trivial⟩⟩

/-- C9 witness: an already-seen identifier is skipped without any event. -/
theorem processSeen_idempotent_witness :
    processFirstItemIfToday [("JESV", ["a@b"])] ["http://x/d.pdf"] ⟨12, 10, 2026⟩
      (.ok ⟨some ⟨"12.10.2026.", none, "JESV vest", some "d.pdf"⟩⟩)
      (fun _ => "http://x/d.pdf") (fun _ => "d.pdf") true true =
      ([], ["http://x/d.pdf"]) :=
  (processSeen_idempotent [("JESV", ["a@b"])] ["http://x/d.pdf"] ⟨12, 10, 2026⟩
    ⟨some ⟨"12.10.2026.", none, "JESV vest", some "d.pdf"⟩⟩
    (fun _ => "http://x/d.pdf") (fun _ => "d.pdf") true true
    ⟨"12.10.2026.", none, "JESV vest", some "d.pdf"⟩ "d.pdf" rfl rfl).1 (by decide)

end Belex
